import Mathlib

/-
Shallow embedding of the bbfetch grading pipeline (blackboard/grading.py):
attempt-state cache synchronization, file materialization, the feedback
classifier, the upload validation pipeline, gradebook lookups, and the
top-level run.  Text is modelled as List Char; Python dicts become
association lists or structures with Option fields (a none field models
an absent key); fallible code returns Option or Except.
-/

/-- Boolean test that the first list is a prefix of the second. -/
def isPrefixB : List Char → List Char → Bool
  | [], _ => true
  | _ :: _, [] => false
  | a :: as, b :: bs => if a = b then isPrefixB as bs else false

/-- Boolean substring test: pat occurs contiguously inside the second list. -/
def containsSub (pat : List Char) : List Char → Bool
  | [] => isPrefixB pat []
  | c :: rest => isPrefixB pat (c :: rest) || containsSub pat rest

/-- Lower-case every character, modelling the effect of the re.I flag. -/
def lowerL (s : List Char) : List Char := s.map Char.toLower

/-- Search for any of the literal alternatives of a regex pattern in the
text, case-insensitively.  This models re.search(p1|p2|..., s, re.I) for
the literal alternations used by the grading code. -/
def reSearchAlt (pats : List (List Char)) (s : List Char) : Bool :=
  pats.any (fun p => containsSub p (lowerL s))

/-- Alternatives of the rehandin regex genaflevering|re-?handin. -/
def rehandinPats : List (List Char) :=
  ["genaflevering".toList, "rehandin".toList, "re-handin".toList]

/-- Alternatives of the accept regex accepted|godkendt. -/
def acceptPats : List (List Char) :=
  ["accepted".toList, "godkendt".toList]

/-- Message of the ValueError raised on conflicting feedback. -/
def bothMsg : List Char := "Both rehandin and accept".toList

/-- Grading.get_feedback_score: classify feedback text.  An Except.error
models the raised ValueError; Except.ok none models the implicit None
return when neither pattern matches. -/
def get_feedback_score (comments : List Char) : Except (List Char) (Option Nat) :=
  let rehandin := reSearchAlt rehandinPats comments
  let accept := reSearchAlt acceptPats comments
  if rehandin && accept then Except.error bothMsg
  else if rehandin then Except.ok (some 0)
  else if accept then Except.ok (some 1)
  else Except.ok none

/-- C1: the feedback classifier is a pure function of the text; if both the
rehandin and accept patterns match (case-insensitively) it fails with the
conflicting-feedback error; if only rehandin matches it returns score 0;
if only accept matches it returns score 1; if neither matches the score is
absent (none), not zero. -/
theorem feedback_score_cases (s : List Char) :
    (reSearchAlt rehandinPats s = true → reSearchAlt acceptPats s = true →
      get_feedback_score s = Except.error bothMsg)
    ∧ (reSearchAlt rehandinPats s = true → reSearchAlt acceptPats s = false →
      get_feedback_score s = Except.ok (some 0))
    ∧ (reSearchAlt rehandinPats s = false → reSearchAlt acceptPats s = true →
      get_feedback_score s = Except.ok (some 1))
    ∧ (reSearchAlt rehandinPats s = false → reSearchAlt acceptPats s = false →
      get_feedback_score s = Except.ok none) := by
  refine ⟨?_, ?_, ?_, ?_⟩ <;> intro h1 h2 <;> simp [get_feedback_score, h1, h2]

/-- C1 witness: concrete texts exercising all four classifier cases. -/
theorem feedback_score_cases_witness :
    get_feedback_score ("Rehandin but also accepted".toList) = Except.error bothMsg
    ∧ get_feedback_score ("genaflevering".toList) = Except.ok (some 0)
    ∧ get_feedback_score ("Godkendt!".toList) = Except.ok (some 1)
    ∧ get_feedback_score ("looks fine".toList) = Except.ok none :=
  ⟨(feedback_score_cases _).1 (by decide) (by decide),
   (feedback_score_cases _).2.1 (by decide) (by decide),
   (feedback_score_cases _).2.2.1 (by decide) (by decide),
   (feedback_score_cases _).2.2.2 (by decide) (by decide)⟩

/-- One entry of an attempt's file list: a dict with a filename and either
inline text contents or a remote download link. -/
structure FileEntry where
  filename : List Char
  contents : Option (List Char) := none
  download_link : Option (List Char) := none
deriving DecidableEq

/-- Cached AttemptStateRecord: the mutable per-attempt dict.  An outer none
models an absent dict key; for the text fields the inner Option models a
Python None value as distinct from a string. -/
structure AttemptRecord where
  submission : Option (Option (List Char)) := none
  comments : Option (Option (List Char)) := none
  files : Option (List FileEntry) := none
  feedback : Option (Option (List Char)) := none
  feedbackfiles : Option (List FileEntry) := none
  directory : Option (List Char) := none
deriving DecidableEq

/-- The attempt_state mapping: derived key to cached record. -/
def Store := List (List Char × AttemptRecord)

/-- Dict lookup with an empty-record default, as in
attempt_state.get(key, \x7b\x7d). -/
def storeGet (s : Store) (k : List Char) : AttemptRecord :=
  match s with
  | [] => {}
  | (k2, r) :: rest => if k2 = k then r else storeGet rest k

/-- Replace the binding of a key, inserting it if absent. -/
def storeSet (s : Store) (k : List Char) (r : AttemptRecord) : Store :=
  match s with
  | [] => [(k, r)]
  | (k2, r2) :: rest =>
    if k2 = k then (k2, r) :: rest else (k2, r2) :: storeSet rest k r

/-- Dict key-membership test. -/
def storeMem (s : Store) (k : List Char) : Bool :=
  match s with
  | [] => false
  | (k2, _) :: rest => if k2 = k then true else storeMem rest k

/-- Derived key of Grading.get_attempt_state: the attempt id, suffixed
with I for an individual (non-group) assignment. -/
def attemptKey (attemptId : List Char) (groupAssignment : Bool) : List Char :=
  if groupAssignment then attemptId else attemptId ++ "I".toList

/-- Python dict.update on a record: keys present in the fetched dict
overwrite, keys absent from it are left alone. -/
def updateRecord (old new : AttemptRecord) : AttemptRecord where
  submission := match new.submission with
    | some v => some v
    | none => old.submission
  comments := match new.comments with
    | some v => some v
    | none => old.comments
  files := match new.files with
    | some v => some v
    | none => old.files
  feedback := match new.feedback with
    | some v => some v
    | none => old.feedback
  feedbackfiles := match new.feedbackfiles with
    | some v => some v
    | none => old.feedbackfiles
  directory := match new.directory with
    | some v => some v
    | none => old.directory

/-- Grading.refresh_attempt_files: merge the detail mapping fetched from
the remote side into the cached record (setdefault followed by update).
The fetched mapping is passed as a parameter standing for the value
returned by the external fetch_attempt collaborator. -/
def refresh_attempt_files (store : Store) (attemptId : List Char)
    (groupAssignment : Bool) (fetched : AttemptRecord) : Store :=
  let key := attemptKey attemptId groupAssignment
  storeSet store key (updateRecord (storeGet store key) fetched)

/-- Test used by Grading.get_attempt_files: all of the keys submission,
comments and files are present in the cached record. -/
def hasDetailKeys (r : AttemptRecord) : Bool :=
  r.submission.isSome && r.comments.isSome && r.files.isSome

theorem storeGet_set_self (s : Store) (k : List Char) (r : AttemptRecord) :
    storeGet (storeSet s k r) k = r := by
  induction s with
  | nil => simp [storeGet, storeSet]
  | cons hd tl ih =>
    by_cases h : hd.1 = k <;> simp [storeGet, storeSet, h, ih]

theorem storeGet_set_ne (s : Store) (k k2 : List Char) (r : AttemptRecord)
    (h : k2 ≠ k) : storeGet (storeSet s k r) k2 = storeGet s k2 := by
  induction s with
  | nil => simp [storeGet, storeSet, Ne.symm h]
  | cons hd tl ih =>
    obtain ⟨a, b⟩ := hd
    by_cases h2 : a = k
    · subst h2
      simp [storeGet, storeSet, Ne.symm h]
    · by_cases h3 : a = k2 <;> simp [storeGet, storeSet, h2, h3, h, ih]

theorem storeMem_set_self (s : Store) (k : List Char) (r : AttemptRecord) :
    storeMem (storeSet s k r) k = true := by
  induction s with
  | nil => simp [storeMem, storeSet]
  | cons hd tl ih =>
    by_cases h : hd.1 = k <;> simp [storeMem, storeSet, h, ih]

theorem storeMem_set_mono (s : Store) (k k2 : List Char) (r : AttemptRecord)
    (h : storeMem s k2 = true) : storeMem (storeSet s k r) k2 = true := by
  induction s with
  | nil => simp [storeMem] at h
  | cons hd tl ih =>
    by_cases h2 : hd.1 = k
    · by_cases h3 : hd.1 = k2 <;>
        simp_all [storeMem, storeSet, h2, h3]
    · by_cases h3 : hd.1 = k2 <;>
        simp_all [storeMem, storeSet, h2, h3]

theorem hasDetailKeys_update (old new : AttemptRecord)
    (h : hasDetailKeys new = true) : hasDetailKeys (updateRecord old new) = true := by
  simp only [hasDetailKeys, Bool.and_eq_true, Option.isSome_iff_exists] at h ⊢
  obtain ⟨⟨⟨a, ha⟩, b, hb⟩, c, hc⟩ := h
  exact ⟨⟨⟨a, by simp [updateRecord, ha]⟩, b, by simp [updateRecord, hb]⟩,
    c, by simp [updateRecord, hc]⟩

/-- C7: merging a fetched detail mapping into the cache updates the record
in place: the key stays present (and every other binding of the store is
untouched, so no record is ever deleted), and every record field whose key
is absent from the fetched mapping — in particular a previously learned
directory — keeps its cached value. -/
theorem refresh_merge_frame (store : Store) (attemptId : List Char)
    (ga : Bool) (fetched : AttemptRecord) :
    storeMem (refresh_attempt_files store attemptId ga fetched)
      (attemptKey attemptId ga) = true
    ∧ (∀ k2, k2 ≠ attemptKey attemptId ga →
        storeGet (refresh_attempt_files store attemptId ga fetched) k2
          = storeGet store k2)
    ∧ (∀ k2, storeMem store k2 = true →
        storeMem (refresh_attempt_files store attemptId ga fetched) k2 = true)
    ∧ (fetched.directory = none →
        (storeGet (refresh_attempt_files store attemptId ga fetched)
          (attemptKey attemptId ga)).directory
        = (storeGet store (attemptKey attemptId ga)).directory)
    ∧ (fetched.submission = none →
        (storeGet (refresh_attempt_files store attemptId ga fetched)
          (attemptKey attemptId ga)).submission
        = (storeGet store (attemptKey attemptId ga)).submission)
    ∧ (fetched.comments = none →
        (storeGet (refresh_attempt_files store attemptId ga fetched)
          (attemptKey attemptId ga)).comments
        = (storeGet store (attemptKey attemptId ga)).comments)
    ∧ (fetched.files = none →
        (storeGet (refresh_attempt_files store attemptId ga fetched)
          (attemptKey attemptId ga)).files
        = (storeGet store (attemptKey attemptId ga)).files)
    ∧ (fetched.feedback = none →
        (storeGet (refresh_attempt_files store attemptId ga fetched)
          (attemptKey attemptId ga)).feedback
        = (storeGet store (attemptKey attemptId ga)).feedback)
    ∧ (fetched.feedbackfiles = none →
        (storeGet (refresh_attempt_files store attemptId ga fetched)
          (attemptKey attemptId ga)).feedbackfiles
        = (storeGet store (attemptKey attemptId ga)).feedbackfiles) := by
  refine ⟨storeMem_set_self _ _ _,
    fun k2 h => storeGet_set_ne _ _ _ _ h,
    fun k2 h => storeMem_set_mono _ _ _ _ h, ?_, ?_, ?_, ?_, ?_, ?_⟩ <;>
    intro h <;>
    simp [refresh_attempt_files, storeGet_set_self, updateRecord, h]

/-- C7 witness: a store with a record holding a directory and one other
binding; a fetched mapping lacking the directory key leaves the directory
and the other binding intact, and the key remains present. -/
theorem refresh_merge_frame_witness :
    storeMem
      (refresh_attempt_files
        [(['a'], { directory := some ['d'] }), (['b'], {})]
        ['a'] true { submission := some (some ['s']) })
      (attemptKey ['a'] true) = true
    ∧ storeGet
      (refresh_attempt_files
        [(['a'], { directory := some ['d'] }), (['b'], {})]
        ['a'] true { submission := some (some ['s']) }) ['b']
      = storeGet [(['a'], { directory := some ['d'] }), (['b'], ({} : AttemptRecord))] ['b']
    ∧ (storeGet
      (refresh_attempt_files
        [(['a'], { directory := some ['d'] }), (['b'], {})]
        ['a'] true { submission := some (some ['s']) })
      (attemptKey ['a'] true)).directory
      = (storeGet [(['a'], { directory := some ['d'] }), (['b'], ({} : AttemptRecord))]
          (attemptKey ['a'] true)).directory :=
  ⟨(refresh_merge_frame _ _ _ _).1,
   (refresh_merge_frame _ _ _ _).2.1 ['b'] (by decide),
   (refresh_merge_frame _ _ _ _).2.2.2.1 (by decide)⟩

/-- Index of the last occurrence of a character, counting from offset i. -/
def lastIndexOfAux (c : Char) (l : List Char) (i : Nat) : Option Nat :=
  match l with
  | [] => none
  | x :: rest =>
    match lastIndexOfAux c rest (i + 1) with
    | some j => some j
    | none => if x = c then some i else none

/-- Index of the last occurrence of a character in a list. -/
def lastIndexOf (c : Char) (l : List Char) : Option Nat := lastIndexOfAux c l 0

/-- os.path.splitext for a bare filename: split at the last dot, unless
every character before that dot is itself a dot (leading dots do not start
an extension). -/
def splitext (name : List Char) : List Char × List Char :=
  match lastIndexOf '.' name with
  | none => (name, [])
  | some j =>
    if (name.take j).any (fun c => !(decide (c = '.'))) then
      (name.take j, name.drop j)
    else (name, [])

/-- Boolean membership of a filename in the used_filenames set. -/
def memL (x : List Char) : List (List Char) → Bool
  | [] => false
  | y :: l => if x = y then true else memL x l

/-- Removal of a filename from the used_filenames set (set.remove). -/
def eraseL (x : List Char) : List (List Char) → List (List Char)
  | [] => []
  | y :: l => if y = x then l else y :: eraseL x l

/-- Name chosen by add_file: if the name is already used, insert the
attempt id between base and extension. -/
def resolveName (attemptId : List Char) (used : List (List Char))
    (name : List Char) : List Char :=
  if memL name used then (splitext name).1 ++ attemptId ++ (splitext name).2
  else name

/-- The synthetic reserved filenames of get_attempt_files. -/
def commentsTxt : List Char := "comments.txt".toList

def submissionTxt : List Char := "submission.txt".toList

def studentCommentsTxt : List Char := "student_comments.txt".toList

/-- Truthiness of a text value (a Python string-or-None): true only for a
non-empty string. -/
def truthyVal : Option (List Char) → Bool
  | some (_ :: _) => true
  | _ => false

/-- Truthiness of st.get(key) for a text field: the key is present and
holds a non-empty string. -/
def truthyField : Option (Option (List Char)) → Bool
  | some (some (_ :: _)) => true
  | _ => false

/-- The loop tail of get_attempt_files: add_file applied to each entry of
the feedbackfiles and files lists in order, threading used_filenames and
appending renamed entries to the output. -/
def addAll (attemptId : List Char) (used : List (List Char)) :
    List FileEntry → List (List Char) × List FileEntry
  | [] => (used, [])
  | e :: rest =>
    let n := resolveName attemptId used e.filename
    let r := addAll attemptId (n :: used) rest
    (r.1, { e with filename := n } :: r.2)

/-- The first half of get_attempt_files: seed used_filenames with
comments.txt, then conditionally add the submission text, the student
comments and the grader feedback (which first releases comments.txt from
the used set). -/
def earlySteps (attemptId : List Char) (sub com : Option (List Char))
    (fb : Option (Option (List Char))) :
    List (List Char) × List FileEntry :=
  let s0 : List (List Char) × List FileEntry := ([commentsTxt], [])
  let s1 :=
    if truthyVal sub then
      let n := resolveName attemptId s0.1 submissionTxt
      (n :: s0.1, s0.2 ++ [({ filename := n, contents := sub } : FileEntry)])
    else s0
  let s2 :=
    if truthyVal com then
      let n := resolveName attemptId s1.1 studentCommentsTxt
      (n :: s1.1, s1.2 ++ [({ filename := n, contents := com } : FileEntry)])
    else s1
  if truthyField fb then
    let usedR := eraseL commentsTxt s2.1
    let n := resolveName attemptId usedR commentsTxt
    (n :: usedR, s2.2 ++ [({ filename := n, contents := fb.getD none } : FileEntry)])
  else s2

/-- Body of Grading.get_attempt_files over a cached record whose detail
has been ensured: build the logical file list with collision resolution.
Returns none when one of the keys submission, comments or files is absent
from the record, modelling the KeyError those subscripts would raise. -/
def get_attempt_files_core (attemptId : List Char) (st : AttemptRecord) :
    Option (List FileEntry) :=
  match st.submission, st.comments, st.files with
  | some sub, some com, some fileList =>
    let s3 := earlySteps attemptId sub com st.feedback
    let r := addAll attemptId s3.1 (st.feedbackfiles.getD [] ++ fileList)
    some (s3.2 ++ r.2)
  | _, _, _ => none

/-- Grading.get_attempt_files with its ensure-detail preamble: if the
cached record lacks one of the keys submission, comments or files, fetch
the detail (refresh_attempt_files) and re-read the record.  The result
pairs the computed file list with the updated store and the number of
remote fetches performed. -/
def get_attempt_files (store : Store) (attemptId : List Char) (ga : Bool)
    (fetched : AttemptRecord) : Option (List FileEntry) × Store × Nat :=
  let key := attemptKey attemptId ga
  let st := storeGet store key
  if hasDetailKeys st then (get_attempt_files_core attemptId st, store, 0)
  else
    let store2 := refresh_attempt_files store attemptId ga fetched
    (get_attempt_files_core attemptId (storeGet store2 key), store2, 1)

/-- C2: the ensure-detail step of get_attempt_files is idempotent.  When the
cached record already has the submission, comments and files keys, no
remote fetch happens and the store is unchanged; and, provided the remote
detail supplies those three keys, two successive calls return the same
file list, leave the same store after the first call, and perform at most
one remote fetch in total. -/
theorem ensure_detail_idempotent (store : Store) (attemptId : List Char)
    (ga : Bool) (fetched : AttemptRecord)
    (hf : hasDetailKeys fetched = true) :
    (hasDetailKeys (storeGet store (attemptKey attemptId ga)) = true →
      (get_attempt_files store attemptId ga fetched).2.1 = store ∧
      (get_attempt_files store attemptId ga fetched).2.2 = 0)
    ∧ (get_attempt_files (get_attempt_files store attemptId ga fetched).2.1
        attemptId ga fetched).2.1
      = (get_attempt_files store attemptId ga fetched).2.1
    ∧ (get_attempt_files (get_attempt_files store attemptId ga fetched).2.1
        attemptId ga fetched).1
      = (get_attempt_files store attemptId ga fetched).1
    ∧ (get_attempt_files store attemptId ga fetched).2.2 +
        (get_attempt_files (get_attempt_files store attemptId ga fetched).2.1
          attemptId ga fetched).2.2 ≤ 1 := by
  by_cases h : hasDetailKeys (storeGet store (attemptKey attemptId ga)) = true
  · simp [get_attempt_files, h]
  · have h2 : hasDetailKeys
        (storeGet (refresh_attempt_files store attemptId ga fetched)
          (attemptKey attemptId ga)) = true := by
      simp only [refresh_attempt_files, storeGet_set_self]
      exact hasDetailKeys_update _ _ hf
    simp [get_attempt_files, h, h2]

/-- C2 witness: a store already holding all three detail keys triggers no
fetch, and starting from an empty store two calls fetch exactly once. -/
theorem ensure_detail_idempotent_witness :
    (get_attempt_files
      [(attemptKey ['a'] true,
        { submission := some none, comments := some none, files := some [] })]
      ['a'] true
      { submission := some none, comments := some none, files := some [] }).2.1
    = [(attemptKey ['a'] true,
        { submission := some none, comments := some none, files := some [] })]
    ∧ (get_attempt_files ([] : Store) ['a'] true
        { submission := some none, comments := some none, files := some [] }).2.2 +
      (get_attempt_files
        (get_attempt_files ([] : Store) ['a'] true
          { submission := some none, comments := some none, files := some [] }).2.1
        ['a'] true
        { submission := some none, comments := some none, files := some [] }).2.2 ≤ 1 :=
  ⟨((ensure_detail_idempotent _ _ _ _ (by decide)).1 (by decide)).1,
   (ensure_detail_idempotent _ _ _ _ (by decide)).2.2.2⟩

/-- Outcome of Grading.main inside the top-level try of
execute_from_command_line: normal completion, or one of the distinguished
ParserError and BadAuth exceptions, or any other uncaught exception. -/
inductive MainOutcome
  | ok
  | parserError
  | badAuth
  | otherExn
deriving DecidableEq

/-- Observable side effects of Grading.execute_from_command_line after
Grading.main returns or raises. -/
inductive RunAction
  | saveGrading
  | printParserError
  | saveParserErrorDump
  | forgetPassword
  | logUncaughtException
  | saveCookies
deriving DecidableEq

/-- Grading.execute_from_command_line, from the try around grading.main
onwards: the except clauses for ParserError, BadAuth and any other
exception, the else clause persisting the store to grading.json, and the
unconditional cookie save. -/
def execute_from_command_line (r : MainOutcome) : List RunAction :=
  (match r with
   | MainOutcome.ok => [RunAction.saveGrading]
   | MainOutcome.parserError =>
      [RunAction.printParserError, RunAction.saveParserErrorDump]
   | MainOutcome.badAuth => [RunAction.forgetPassword]
   | MainOutcome.otherExn => [RunAction.logUncaughtException])
  ++ [RunAction.saveCookies]

/-- C6: the final persist of the durable store (grading.save on
grading.json) runs exactly when grading.main completes without raising;
any exception — the distinguished parse-failure and bad-credentials
conditions included, and any other uncaught exception — suppresses it, so
the on-disk store keeps the state of the last completed checkpoint. -/
theorem save_only_on_clean_main (r : MainOutcome) :
    RunAction.saveGrading ∈ execute_from_command_line r ↔ r = MainOutcome.ok := by
  cases r <;> decide

/-- Lexicographic strict order on character lists, used to model sorted(). -/
def lexLtL (a b : List Char) : Bool :=
  match a, b with
  | [], [] => false
  | [], _ :: _ => true
  | _ :: _, [] => false
  | x :: xs, y :: ys => if x = y then lexLtL xs ys else decide (x < y)

/-- Insertion into a sorted list of names. -/
def insertSorted (x : List Char) : List (List Char) → List (List Char)
  | [] => [x]
  | y :: l => if lexLtL x y then x :: y :: l else y :: insertSorted x l

/-- Insertion sort over names. -/
def sortL : List (List Char) → List (List Char)
  | [] => []
  | x :: l => insertSorted x (sortL l)

/-- Keep one occurrence of each name. -/
def dedupL : List (List Char) → List (List Char)
  | [] => []
  | x :: l => if memL x l then dedupL l else x :: dedupL l

/-- sorted(set(names)). -/
def sortedDedup (l : List (List Char)) : List (List Char) := sortL (dedupL l)

/-- A roster student as seen by Grading.get_attempt: the display of its
first group (get_student_group_display) and its visibility
(get_student_visible). -/
structure StudentG where
  groupDisplay : List Char
  visible : Bool
deriving DecidableEq

/-- An assignment as seen by Grading.get_attempt: its display name
(get_assignment_name_display). -/
structure AssignmentG where
  displayName : List Char
deriving DecidableEq

/-- The two ValueError variants of Grading.get_attempt, each carrying the
name list embedded in its message. -/
inductive LookupError
  | noGroup (names : List (List Char))
  | noAssignment (names : List (List Char))
deriving DecidableEq

/-- Grading.get_attempt up to the selection of the student and assignment
(the final attempt-index subscript is not modelled; the claims concern the
two lookup-error branches).  Note that the no-group branch computes its
name list from the variable students, which at that point has been rebound
to the already-filtered (empty) list. -/
def get_attempt (students : List StudentG) (assignments : List AssignmentG)
    (group : List Char) (assignmentName : List Char) :
    Except LookupError (StudentG × AssignmentG) :=
  let students1 :=
    (students.filter (fun s => s.visible)).filter
      (fun s => decide (s.groupDisplay = group))
  match students1 with
  | [] =>
    Except.error (LookupError.noGroup
      (sortedDedup (students1.map (fun s => s.groupDisplay))))
  | student :: _ =>
    match assignments.filter (fun a => decide (a.displayName = assignmentName)) with
    | [] =>
      Except.error (LookupError.noAssignment
        (assignments.map (fun a => a.displayName)))
    | a :: _ => Except.ok (student, a)

/-- C8, evaluated at the failing input: with one visible student whose
group display is G1 and one assignment named 1, looking up the unknown
group G2 raises the no-group error carrying an empty name list — although
the valid group display names are [G1] — because the code derives the
names from the already-filtered empty student list; the assignment branch,
by contrast, does report the valid assignment names. -/
theorem get_attempt_group_names_empty :
    get_attempt [{ groupDisplay := "G1".toList, visible := true }]
      [{ displayName := ['1'] }] ("G2".toList) ['1']
      = Except.error (LookupError.noGroup [])
    ∧ (([({ groupDisplay := "G1".toList, visible := true } : StudentG)].filter
        (fun s => s.visible)).map (fun s => s.groupDisplay)) = ["G1".toList]
    ∧ get_attempt [{ groupDisplay := "G1".toList, visible := true }]
      [{ displayName := ['1'] }] ("G1".toList) ['2']
      = Except.error (LookupError.noAssignment [['1']]) := by
  refine ⟨by rfl, by decide, by rfl⟩

/-- Check that every name produced while adding the feedbackfiles and
files entries — after the single collision-rename add_file performs — is
not itself already in the used set.  get_attempt_files renames a colliding
name only once and does not re-check the renamed name, so this is the
precondition under which its output names are distinct. -/
def addAllFresh (attemptId : List Char) (used : List (List Char)) :
    List FileEntry → Bool
  | [] => true
  | e :: rest =>
    let n := resolveName attemptId used e.filename
    !(memL n used) && addAllFresh attemptId (n :: used) rest

/-- The freshness precondition lifted to a cached record, running the same
steps as get_attempt_files_core. -/
def coreFresh (attemptId : List Char) (st : AttemptRecord) : Bool :=
  match st.submission, st.comments, st.files with
  | some sub, some com, some fileList =>
    addAllFresh attemptId (earlySteps attemptId sub com st.feedback).1
      (st.feedbackfiles.getD [] ++ fileList)
  | _, _, _ => false

theorem addAll_fresh_spec (attemptId : List Char) (es : List FileEntry) :
    ∀ used, addAllFresh attemptId used es = true →
      (((addAll attemptId used es).2.map (fun e => e.filename)).Nodup ∧
        ∀ n, n ∈ (addAll attemptId used es).2.map (fun e => e.filename) →
          memL n used = false) := by
  induction es with
  | nil => intro used _; simp [addAll]
  | cons e rest ih =>
    intro used h
    simp only [addAllFresh, Bool.and_eq_true, Bool.not_eq_true'] at h
    obtain ⟨h1, h2⟩ := h
    have ihh := ih (resolveName attemptId used e.filename :: used) h2
    simp only [addAll, List.map_cons, List.nodup_cons]
    refine ⟨⟨?_, ihh.1⟩, ?_⟩
    · intro hmem
      have := ihh.2 _ hmem
      simp [memL] at this
    · intro n hn
      rcases List.mem_cons.mp hn with hn | hn
      · exact hn ▸ h1
      · have := ihh.2 _ hn
        simp only [memL] at this
        by_cases hq : n = resolveName attemptId used e.filename
        · rw [if_pos hq] at this
          exact absurd this (by simp)
        · rwa [if_neg hq] at this


theorem earlySteps_spec (attemptId : List Char) (sub com : Option (List Char))
    (fb : Option (Option (List Char))) :
    ((earlySteps attemptId sub com fb).2.map (fun e => e.filename)).Nodup
    ∧ memL commentsTxt (earlySteps attemptId sub com fb).1 = true
    ∧ (∀ n, n ∈ (earlySteps attemptId sub com fb).2.map (fun e => e.filename) →
        memL n (earlySteps attemptId sub com fb).1 = true)
    ∧ (∀ e, e ∈ (earlySteps attemptId sub com fb).2 → e.filename = commentsTxt →
        truthyField fb = true ∧ e.contents = fb.getD none) := by
  have n1 : submissionTxt ≠ commentsTxt := by decide
  have n2 : studentCommentsTxt ≠ commentsTxt := by decide
  have n3 : submissionTxt ≠ studentCommentsTxt := by decide
  have n1s : commentsTxt ≠ submissionTxt := by decide
  have n2s : commentsTxt ≠ studentCommentsTxt := by decide
  have n3s : studentCommentsTxt ≠ submissionTxt := by decide
  have m1 : memL submissionTxt [commentsTxt] = false := by decide
  have m2 : memL studentCommentsTxt [submissionTxt, commentsTxt] = false := by decide
  have m3 : memL studentCommentsTxt [commentsTxt] = false := by decide
  have m4 : memL commentsTxt [studentCommentsTxt, submissionTxt] = false := by decide
  have m5 : memL commentsTxt [submissionTxt] = false := by decide
  have m6 : memL commentsTxt [studentCommentsTxt] = false := by decide
  have m7 : memL commentsTxt ([] : List (List Char)) = false := by decide
  have d1 : resolveName attemptId [commentsTxt] submissionTxt = submissionTxt := by
    simp [resolveName, m1]
  have d2 : resolveName attemptId [submissionTxt, commentsTxt] studentCommentsTxt
      = studentCommentsTxt := by
    simp [resolveName, m2]
  have d3 : resolveName attemptId [commentsTxt] studentCommentsTxt
      = studentCommentsTxt := by
    simp [resolveName, m3]
  have d4 : resolveName attemptId [studentCommentsTxt, submissionTxt] commentsTxt
      = commentsTxt := by
    simp [resolveName, m4]
  have d5 : resolveName attemptId [submissionTxt] commentsTxt = commentsTxt := by
    simp [resolveName, m5]
  have d6 : resolveName attemptId [studentCommentsTxt] commentsTxt = commentsTxt := by
    simp [resolveName, m6]
  have d7 : resolveName attemptId ([] : List (List Char)) commentsTxt = commentsTxt := by
    simp [resolveName, m7]
  have e1 : eraseL commentsTxt [studentCommentsTxt, submissionTxt, commentsTxt]
      = [studentCommentsTxt, submissionTxt] := by decide
  have e2 : eraseL commentsTxt [submissionTxt, commentsTxt] = [submissionTxt] := by
    decide
  have e3 : eraseL commentsTxt [studentCommentsTxt, commentsTxt]
      = [studentCommentsTxt] := by decide
  have e4 : eraseL commentsTxt [commentsTxt] = [] := by decide
  cases hb1 : truthyVal sub <;> cases hb2 : truthyVal com <;>
    cases hb3 : truthyField fb <;>
    refine ⟨?_, ?_, ?_, ?_⟩ <;>
    simp [earlySteps, hb1, hb2, hb3, d1, d2, d3, d4, d5, d6, d7,
      e1, e2, e3, e4, n1, n2, n3, n1s, n2s, n3s, memL]

/-- C4 counterexample input: an attempt whose files list carries two
entries both named comments.txt (and no grader feedback). -/
def dupNamesState : AttemptRecord :=
  { submission := some (some []), comments := some (some []),
    files := some [{ filename := commentsTxt }, { filename := commentsTxt }] }

/-- C4 counterexample: add_file renames a colliding name only once and
never re-checks the renamed name, so with attempt id _1 both entries are
renamed to comments_1.txt and the returned file list has two equal
filenames — the claimed pairwise distinctness fails. -/
theorem attempt_files_duplicate_cex :
    get_attempt_files_core ("_1".toList) dupNamesState
      = some [{ filename := "comments_1.txt".toList },
          { filename := "comments_1.txt".toList }]
    ∧ ¬ (List.Nodup (List.map (fun e => e.filename)
        [({ filename := "comments_1.txt".toList } : FileEntry),
          { filename := "comments_1.txt".toList }])) := by
  refine ⟨by rfl, by decide⟩

/-- C4 as amended: whenever every name produced by the single rename step
is itself unused (the coreFresh precondition, violated only when a renamed
name collides a second time), the file list returned by get_attempt_files
has pairwise-distinct filenames; an entry named comments.txt can only be
the grader-feedback file (carrying the feedback text); and a logical file
whose name collides with an already-used name is renamed by inserting the
attempt id between base name and extension, yielding a distinct file. -/
theorem attempt_files_unique (attemptId : List Char) (st : AttemptRecord)
    (l : List FileEntry)
    (hfresh : coreFresh attemptId st = true)
    (hcore : get_attempt_files_core attemptId st = some l) :
    (l.map (fun e => e.filename)).Nodup
    ∧ (∀ e, e ∈ l → e.filename = commentsTxt →
        truthyField st.feedback = true ∧ e.contents = st.feedback.getD none)
    ∧ (∀ used n, memL n used = true →
        resolveName attemptId used n
          = (splitext n).1 ++ attemptId ++ (splitext n).2) := by
  rcases hsub : st.submission with _ | sub <;>
    rcases hcom : st.comments with _ | com <;>
    rcases hfl : st.files with _ | fileList <;>
    simp only [get_attempt_files_core, hsub, hcom, hfl, Option.some.injEq,
      reduceCtorEq] at hcore
  have hfr : addAllFresh attemptId (earlySteps attemptId sub com st.feedback).1
      (st.feedbackfiles.getD [] ++ fileList) = true := by
    simpa only [coreFresh, hsub, hcom, hfl] using hfresh
  have hes := earlySteps_spec attemptId sub com st.feedback
  have has := addAll_fresh_spec attemptId (st.feedbackfiles.getD [] ++ fileList)
    (earlySteps attemptId sub com st.feedback).1 hfr
  subst hcore
  refine ⟨?_, ?_, ?_⟩
  · rw [List.map_append]
    refine List.Nodup.append hes.1 has.1 ?_
    intro a ha hb
    have h1 := hes.2.2.1 a ha
    have h2 := has.2 a hb
    rw [h1] at h2
    exact absurd h2 (by simp)
  · intro e he hc
    rcases List.mem_append.mp he with he | he
    · exact hes.2.2.2 e he hc
    · have h2 := has.2 e.filename (List.mem_map_of_mem _ he)
      rw [hc] at h2
      rw [hes.2.1] at h2
      exact absurd h2 (by simp)
  · intro used n h
    simp [resolveName, h]

/-- C4 witness input: submission text, grader feedback, and one student
file named comments.txt that collides with the reserved feedback name. -/
def collideState : AttemptRecord :=
  { submission := some (some ("hi".toList)), comments := some none,
    files := some [{ filename := commentsTxt, download_link := some ['L'] }],
    feedback := some (some ("ok".toList)) }

/-- C4 witness: on the collision input the amended theorem applies — the
three produced filenames (submission.txt, comments.txt for the feedback,
and the student file renamed to comments_1.txt) are pairwise distinct, and
a name already in use is renamed by inserting the attempt id. -/
theorem attempt_files_unique_witness :
    ((([{ filename := submissionTxt, contents := some ("hi".toList) },
        { filename := commentsTxt, contents := some ("ok".toList) },
        { filename := "comments_1.txt".toList, download_link := some ['L'] }] :
        List FileEntry)).map (fun e => e.filename)).Nodup
    ∧ resolveName ("_1".toList) [commentsTxt] commentsTxt
        = (splitext commentsTxt).1 ++ "_1".toList ++ (splitext commentsTxt).2 :=
  ⟨(attempt_files_unique ("_1".toList) collideState _ (by decide) (by rfl)).1,
   (attempt_files_unique ("_1".toList) collideState _ (by decide) (by rfl)).2.2
     [commentsTxt] commentsTxt (by decide)⟩

/-- C10 counterexample input: empty submission text and empty student
comments, but a student-submitted file literally named submission.txt. -/
def emptyTextState : AttemptRecord :=
  { submission := some (some []), comments := some (some []),
    files := some [{ filename := submissionTxt, download_link := some ['L'] }] }

/-- C10 counterexample: with empty submission text the output nevertheless
contains an entry named submission.txt — it is the student-submitted file
of that name — so the claim that no submission.txt entry is included does
not hold as stated. -/
theorem empty_text_entry_cex :
    emptyTextState.submission = some (some [])
    ∧ get_attempt_files_core ("_1".toList) emptyTextState
      = some [{ filename := submissionTxt, download_link := some ['L'] }] := by
  refine ⟨by rfl, by rfl⟩

/-- C10 as amended: empty (or None) submission text and student comments
contribute nothing at the materialization interface — the computed file
list is the same as with the texts absent, so no submission.txt or
student_comments.txt entry is produced for those logical items and a file
for them arises only from non-empty text; an entry so named can still
come from a student-submitted file.  In particular, with no feedback, no
feedback files and no submitted files, the file list is empty. -/
theorem empty_text_no_branch_file (attemptId : List Char) (st : AttemptRecord)
    (sub com : Option (List Char))
    (hs : st.submission = some sub) (hc : st.comments = some com)
    (h1 : truthyVal sub = false) (h2 : truthyVal com = false) :
    get_attempt_files_core attemptId st
      = get_attempt_files_core attemptId
          { st with submission := some none, comments := some none }
    ∧ (st.files = some [] → st.feedbackfiles = none →
        truthyField st.feedback = false →
        get_attempt_files_core attemptId st = some []) := by
  have t0 : truthyVal (none : Option (List Char)) = false := by decide
  constructor
  · cases hfl : st.files <;>
      simp [get_attempt_files_core, hs, hc, hfl, earlySteps, h1, h2, t0]
  · intro hfl hff hfb
    simp [get_attempt_files_core, hs, hc, hfl, hff, hfb, earlySteps, h1, h2, addAll]

/-- C10 witness input: empty submission text, a None student comment, an
empty files list and nothing else. -/
def blankState : AttemptRecord :=
  { submission := some (some []), comments := some none, files := some [] }

/-- C10 witness: on the blank record the amended theorem applies — the
file list is empty and agrees with the record whose texts are absent. -/
theorem empty_text_no_branch_file_witness :
    get_attempt_files_core ['i'] blankState = some []
    ∧ get_attempt_files_core ['i'] blankState
      = get_attempt_files_core ['i']
        { blankState with submission := some none, comments := some none } :=
  ⟨(empty_text_no_branch_file ['i'] _ (some []) none rfl rfl (by decide)
      (by decide)).2 rfl rfl (by decide),
   (empty_text_no_branch_file ['i'] _ (some []) none rfl rfl (by decide)
      (by decide)).1⟩

/-- The local filesystem, as a mapping from paths to file contents. -/
def FS := List (List Char × List Char)

/-- Contents of the file at a path, if it exists. -/
def fsLookup (fs : FS) (p : List Char) : Option (List Char) :=
  match fs with
  | [] => none
  | (q, v) :: rest => if q = p then some v else fsLookup rest p

/-- os.path.exists for a file path. -/
def fsExists (fs : FS) (p : List Char) : Bool := (fsLookup fs p).isSome

/-- Write a file, replacing its contents if the path exists. -/
def fsWrite (fs : FS) (p v : List Char) : FS :=
  match fs with
  | [] => [(p, v)]
  | (q, w) :: rest =>
    if q = p then (q, v) :: rest else (q, w) :: fsWrite rest p v

/-- Read the contents of a file (empty for a missing file). -/
def fsRead (fs : FS) (p : List Char) : List Char := (fsLookup fs p).getD []

/-- Boolean suffix test. -/
def endsWithL (suffix l : List Char) : Bool :=
  isPrefixB suffix.reverse l.reverse

/-- os.path.dirname: the path up to (excluding) the last slash. -/
def dirname (p : List Char) : List Char :=
  match lastIndexOf '/' p with
  | none => []
  | some j => p.take j

/-- Normalization applied to text contents before writing: append a
newline when the text is non-empty and does not already end in one. -/
def pyAppendNl (s : List Char) : List Char :=
  match s.getLast? with
  | none => s
  | some c => if c = '\n' then s else s ++ ['\n']

/-- The target path of a logical file inside the attempt directory. -/
def targetPath (d : List Char) (o : FileEntry) : List Char :=
  d ++ '/' :: o.filename

/-- zipfile.extractall: write every archive entry into the directory,
overwriting existing paths.  The entries are produced by the zip decoder
(an external collaborator) from the archive bytes. -/
def extractInto (path : List Char) (entries : List (List Char × List Char))
    (fs : FS) : FS :=
  match entries with
  | [] => fs
  | e :: rest => extractInto path rest (fsWrite fs (path ++ '/' :: e.1) e.2)

/-- Grading.extract_archive: if the filename ends in .zip, expand the
archive read from the filesystem into its directory. -/
def extract_archive (zipE : List Char → List (List Char × List Char))
    (fs : FS) (filename : List Char) : FS :=
  if endsWithL (".zip".toList) filename then
    extractInto (dirname filename) (zipE (fsRead fs filename)) fs
  else fs

/-- One iteration of the loop of Grading.download_attempt_files: skip the
file if its target path exists; otherwise write inline contents (newline
normalized), or stream the remote download and expand a zip archive in
place.  none models the KeyError when an entry has neither contents nor a
download link. -/
def download_one (remote : List Char → List Char)
    (zipE : List Char → List (List Char × List Char))
    (d : List Char) (fs : FS) (o : FileEntry) : Option FS :=
  let outfile := targetPath d o
  if fsExists fs outfile then some fs
  else
    match o.contents with
    | some s => some (fsWrite fs outfile (pyAppendNl s))
    | none =>
      match o.download_link with
      | some link =>
        let fs1 := fsWrite fs outfile (remote link)
        some (extract_archive zipE fs1 outfile)
      | none => none

/-- Grading.download_attempt_files over an already-computed file list and
attempt directory: process every logical file in order. -/
def download_attempt_files (remote : List Char → List Char)
    (zipE : List Char → List (List Char × List Char))
    (d : List Char) (files : List FileEntry) (fs : FS) : Option FS :=
  match files with
  | [] => some fs
  | o :: rest =>
    match download_one remote zipE d fs o with
    | none => none
    | some fs1 => download_attempt_files remote zipE d rest fs1

theorem fsLookup_write_self (fs : FS) (p v : List Char) :
    fsLookup (fsWrite fs p v) p = some v := by
  induction fs with
  | nil => simp [fsLookup, fsWrite]
  | cons hd tl ih =>
    by_cases h : hd.1 = p <;> simp [fsLookup, fsWrite, h, ih]

theorem fsExists_write_mono (fs : FS) (p q v : List Char)
    (h : fsExists fs q = true) : fsExists (fsWrite fs p v) q = true := by
  induction fs with
  | nil => simp [fsExists, fsLookup] at h
  | cons hd tl ih =>
    by_cases h2 : hd.1 = p
    · by_cases h3 : hd.1 = q <;>
        simp_all [fsExists, fsLookup, fsWrite, h2, h3]
    · by_cases h3 : hd.1 = q <;>
        simp_all [fsExists, fsLookup, fsWrite, h2, h3]

theorem fsExists_extractInto_mono (path q : List Char)
    (entries : List (List Char × List Char)) :
    ∀ fs, fsExists fs q = true → fsExists (extractInto path entries fs) q = true := by
  induction entries with
  | nil => intro fs h; simpa [extractInto] using h
  | cons e rest ih =>
    intro fs h
    exact ih _ (fsExists_write_mono _ _ _ _ h)

theorem fsExists_extract_mono (zipE : List Char → List (List Char × List Char))
    (fs : FS) (f q : List Char) (h : fsExists fs q = true) :
    fsExists (extract_archive zipE fs f) q = true := by
  unfold extract_archive
  split
  · exact fsExists_extractInto_mono _ _ _ _ h
  · exact h

theorem download_one_skip (remote : List Char → List Char)
    (zipE : List Char → List (List Char × List Char))
    (d : List Char) (fs : FS) (o : FileEntry)
    (h : fsExists fs (targetPath d o) = true) :
    download_one remote zipE d fs o = some fs := by
  simp [download_one, h]

theorem download_one_mono (remote : List Char → List Char)
    (zipE : List Char → List (List Char × List Char))
    (d : List Char) (fs fs1 : FS) (o : FileEntry) (q : List Char)
    (h : download_one remote zipE d fs o = some fs1)
    (hq : fsExists fs q = true) : fsExists fs1 q = true := by
  cases he : fsExists fs (targetPath d o) with
  | true =>
    rw [download_one_skip remote zipE d fs o he] at h
    cases h
    exact hq
  | false =>
    rcases hc : o.contents with _ | s
    · rcases hl : o.download_link with _ | link
      · simp [download_one, he, hc, hl] at h
      · simp only [download_one, he, hc, hl, Bool.false_eq_true, if_false,
          Option.some.injEq] at h
        subst h
        exact fsExists_extract_mono _ _ _ _ (fsExists_write_mono _ _ _ _ hq)
    · simp only [download_one, he, hc, Bool.false_eq_true, if_false,
        Option.some.injEq] at h
      subst h
      exact fsExists_write_mono _ _ _ _ hq

theorem download_one_target (remote : List Char → List Char)
    (zipE : List Char → List (List Char × List Char))
    (d : List Char) (fs fs1 : FS) (o : FileEntry)
    (h : download_one remote zipE d fs o = some fs1) :
    fsExists fs1 (targetPath d o) = true := by
  cases he : fsExists fs (targetPath d o) with
  | true =>
    rw [download_one_skip remote zipE d fs o he] at h
    cases h
    exact he
  | false =>
    rcases hc : o.contents with _ | s
    · rcases hl : o.download_link with _ | link
      · simp [download_one, he, hc, hl] at h
      · simp only [download_one, he, hc, hl, Bool.false_eq_true, if_false,
          Option.some.injEq] at h
        subst h
        exact fsExists_extract_mono _ _ _ _ (by simp [fsExists, fsLookup_write_self])
    · simp only [download_one, he, hc, Bool.false_eq_true, if_false,
        Option.some.injEq] at h
      subst h
      simp [fsExists, fsLookup_write_self]

theorem download_files_mono (remote : List Char → List Char)
    (zipE : List Char → List (List Char × List Char))
    (d : List Char) (files : List FileEntry) :
    ∀ fs fs2, download_attempt_files remote zipE d files fs = some fs2 →
      ∀ q, fsExists fs q = true → fsExists fs2 q = true := by
  induction files with
  | nil =>
    intro fs fs2 h q hq
    simp only [download_attempt_files, Option.some.injEq] at h
    exact h ▸ hq
  | cons o rest ih =>
    intro fs fs2 h q hq
    simp only [download_attempt_files] at h
    rcases ho : download_one remote zipE d fs o with _ | fs1
    · rw [ho] at h; cases h
    · rw [ho] at h
      exact ih fs1 fs2 h q (download_one_mono _ _ _ _ _ _ _ ho hq)

theorem download_files_targets (remote : List Char → List Char)
    (zipE : List Char → List (List Char × List Char))
    (d : List Char) (files : List FileEntry) :
    ∀ fs fs2, download_attempt_files remote zipE d files fs = some fs2 →
      ∀ o, o ∈ files → fsExists fs2 (targetPath d o) = true := by
  induction files with
  | nil => intro fs fs2 h o ho; cases ho
  | cons o rest ih =>
    intro fs fs2 h o2 ho2
    simp only [download_attempt_files] at h
    rcases ho : download_one remote zipE d fs o with _ | fs1
    · rw [ho] at h; cases h
    · rw [ho] at h
      rcases List.mem_cons.mp ho2 with h2 | h2
      · subst h2
        exact download_files_mono _ _ _ _ _ _ h _
          (download_one_target _ _ _ _ _ _ ho)
      · exact ih fs1 fs2 h o2 h2

theorem download_files_skip_all (remote : List Char → List Char)
    (zipE : List Char → List (List Char × List Char))
    (d : List Char) (files : List FileEntry) :
    ∀ fs, (∀ o, o ∈ files → fsExists fs (targetPath d o) = true) →
      download_attempt_files remote zipE d files fs = some fs := by
  induction files with
  | nil => intro fs _; rfl
  | cons o rest ih =>
    intro fs h
    simp only [download_attempt_files]
    rw [download_one_skip remote zipE d fs o (h o (List.mem_cons_self o rest))]
    exact ih fs (fun o2 ho2 => h o2 (List.mem_cons_of_mem o ho2))

/-- C3 counterexample inputs: the attempt directory d already holds
d/b.txt, and the single logical file a.zip is remote-hosted; the remote
serves bytes Z for its link and the zip decoder reads entry b.txt out of
those bytes. -/
def cexRemote (link : List Char) : List Char :=
  if link = ['L'] then ['Z'] else []

def cexZip (bytes : List Char) : List (List Char × List Char) :=
  if bytes = ['Z'] then [("b.txt".toList, "new".toList)] else []

def cexFs : FS := [("d/b.txt".toList, "old".toList)]

def cexFiles : List FileEntry :=
  [{ filename := "a.zip".toList, download_link := some ['L'] }]

/-- C3 counterexample: the pre-existing file d/b.txt is overwritten by a
single run of download_attempt_files — its logical file a.zip did not
exist, is downloaded, and its archive expansion writes the entry b.txt
over the existing path — so the claim that an existing file's contents
are always left unchanged does not hold as stated. -/
theorem download_overwrites_cex :
    fsLookup cexFs ("d/b.txt".toList) = some ("old".toList)
    ∧ download_attempt_files cexRemote cexZip ("d".toList) cexFiles cexFs
      = some [("d/b.txt".toList, "new".toList), ("d/a.zip".toList, ['Z'])] := by
  refine ⟨by rfl, by rfl⟩

/-- C3 as amended: the per-file write step of download_attempt_files only
writes target paths that do not yet exist — if every logical file's target
already exists the filesystem is returned unchanged — and a second run
right after a successful run performs no write at all, so materialization
twice produces the same on-disk state as once; expanding a downloaded zip
archive, however, writes its entries unconditionally and may overwrite an
existing path. -/
theorem download_materialize_idempotent (remote : List Char → List Char)
    (zipE : List Char → List (List Char × List Char))
    (d : List Char) (files : List FileEntry) (fs fs2 : FS)
    (h : download_attempt_files remote zipE d files fs = some fs2) :
    download_attempt_files remote zipE d files fs2 = some fs2
    ∧ ((∀ o, o ∈ files → fsExists fs (targetPath d o) = true) → fs2 = fs) := by
  constructor
  · exact download_files_skip_all _ _ _ _ _
      (download_files_targets _ _ _ _ _ _ h)
  · intro hall
    have := download_files_skip_all remote zipE d files fs hall
    rw [this] at h
    cases h
    rfl

/-- C3 witness: a concrete two-file run — one inline text file and one
remote zip — followed by a second run that changes nothing, and a run on a
filesystem already holding every target, which is returned unchanged. -/
theorem download_materialize_idempotent_witness :
    download_attempt_files cexRemote cexZip ("d".toList) cexFiles
      [("d/b.txt".toList, "new".toList), ("d/a.zip".toList, ['Z'])]
      = some [("d/b.txt".toList, "new".toList), ("d/a.zip".toList, ['Z'])]
    ∧ (download_attempt_files cexRemote cexZip ("d".toList) cexFiles
        [("d/a.zip".toList, ['X'])]).getD []
      = [("d/a.zip".toList, ['X'])] :=
  ⟨(download_materialize_idempotent cexRemote cexZip _ cexFiles cexFs _
      (by rfl)).1,
   by
    rw [(download_materialize_idempotent cexRemote cexZip ("d".toList) cexFiles
      [("d/a.zip".toList, ['X'])] [("d/a.zip".toList, ['X'])] (by rfl)).2
      (by decide)]
    rfl⟩

theorem isPrefixB_append (p : List Char) :
    ∀ l m, isPrefixB p l = true → isPrefixB p (l ++ m) = true := by
  induction p with
  | nil => intro l m _; rfl
  | cons a as ih =>
    intro l m h
    cases l with
    | nil => simp [isPrefixB] at h
    | cons b bs =>
      simp only [isPrefixB, List.cons_append] at h ⊢
      by_cases hab : a = b
      · rw [if_pos hab] at h ⊢
        exact ih bs m h
      · rw [if_neg hab] at h
        cases h

theorem endsWithL_append (s a b : List Char) (h : endsWithL s b = true) :
    endsWithL s (a ++ b) = true := by
  unfold endsWithL at h ⊢
  rw [List.reverse_append]
  exact isPrefixB_append _ _ _ h

/-- C9: a remote-hosted logical file whose name ends in .zip and whose
target does not yet exist is downloaded and then immediately expanded in
place — the resulting filesystem is exactly the written download followed
by the extraction of the decoded entries of the downloaded bytes into the
attempt's directory. -/
theorem archive_extracted_after_download (remote : List Char → List Char)
    (zipE : List Char → List (List Char × List Char))
    (d : List Char) (fs : FS) (o : FileEntry) (link : List Char)
    (h1 : fsExists fs (targetPath d o) = false)
    (h2 : o.contents = none) (h3 : o.download_link = some link)
    (h4 : endsWithL (".zip".toList) o.filename = true) :
    download_one remote zipE d fs o
      = some (extractInto (dirname (targetPath d o)) (zipE (remote link))
          (fsWrite fs (targetPath d o) (remote link))) := by
  have hz : endsWithL (".zip".toList) (targetPath d o) = true := by
    have ht : targetPath d o = (d ++ ['/']) ++ o.filename := by
      simp [targetPath]
    rw [ht]
    exact endsWithL_append _ _ _ h4
  simp only [download_one, h1, Bool.false_eq_true, if_false, h2, h3]
  simp only [extract_archive]
  rw [if_pos hz]
  simp [fsRead, fsLookup_write_self]

/-- C9 witness: a concrete zip download — the bytes Z are written to
d/a.zip and the decoded entry e.txt is extracted into d immediately. -/
theorem archive_extracted_after_download_witness :
    download_one (fun _ => ['Z']) (fun _ => [("e.txt".toList, ['v'])])
      ['d'] [] { filename := "a.zip".toList, download_link := some ['L'] }
      = some [("d/a.zip".toList, ['Z']), ("d/e.txt".toList, ['v'])] :=
  (archive_extracted_after_download (fun _ => ['Z'])
    (fun _ => [("e.txt".toList, ['v'])]) ['d'] []
    { filename := "a.zip".toList, download_link := some ['L'] } ['L']
    (by rfl) (by rfl) (by rfl) (by decide)).trans (by rfl)

/-- An attempt as seen by the upload pipeline: identity, the cached
attempt directory (none when never materialized), and its logical file
list as computed by get_attempt_files. -/
structure UAttempt where
  attemptId : List Char
  directory : Option (List Char)
  files : List FileEntry
deriving DecidableEq

/-- Grading.get_feedback: read the materialized comments.txt; None when
the attempt has no directory or the file does not exist. -/
def get_feedback (fs : FS) (a : UAttempt) : Option (List Char) :=
  match a.directory with
  | none => none
  | some d => fsLookup fs (d ++ '/' :: commentsTxt)

/-- Grading.get_annotated_filename: insert _ann before the extension. -/
def get_annotated_filename (filename : List Char) : List Char :=
  (splitext filename).1 ++ "_ann".toList ++ (splitext filename).2

/-- Grading.get_feedback_attachments: the annotated counterparts of the
attempt's materialized files that exist on disk; raises ValueError (the
error side) when the files were never downloaded. -/
def get_feedback_attachments (fs : FS) (a : UAttempt) :
    Except (List Char) (List (List Char)) :=
  match a.directory with
  | none => Except.error ("Files not downloaded".toList)
  | some d =>
    Except.ok ((a.files.map
      (fun o => get_annotated_filename (d ++ '/' :: o.filename))).filter
      (fun f => fsExists fs f))

/-- Outcome of calling get_feedback_score on the value returned by
get_feedback: a None feedback makes re.search raise a TypeError (which is
not a ValueError), a conflicting text raises the ValueError, and otherwise
a score (possibly absent) is returned. -/
inductive ScoreOutcome
  | typeError
  | valueError (msg : List Char)
  | score (s : Option Nat)
deriving DecidableEq

/-- get_feedback_score as invoked by upload_attempts, on an optional
feedback text. -/
def feedback_score_py (feedback : Option (List Char)) : ScoreOutcome :=
  match feedback with
  | none => ScoreOutcome.typeError
  | some text =>
    match get_feedback_score text with
    | Except.error m => ScoreOutcome.valueError m
    | Except.ok s => ScoreOutcome.score s

/-- Message recorded when the classifier returns no score. -/
def indeterminateMsg : List Char :=
  "Feedback does not indicate accept/rehandin".toList

/-- A validated upload: what live mode would pass to submit_grade. -/
structure UploadItem where
  attemptId : List Char
  score : Option Nat
  feedback : List Char
  attachments : List (List Char)
deriving DecidableEq

/-- One iteration of the loop of Grading.upload_attempts: gather feedback,
classify it (only ValueError is caught — a TypeError from a None feedback
propagates, modelled by none), gather attachments, and either record the
attempt's validation errors or produce the upload tuple. -/
def upload_one (fs : FS) (a : UAttempt) :
    Option (Except (List (List Char)) UploadItem) :=
  match feedback_score_py (get_feedback fs a) with
  | ScoreOutcome.typeError => none
  | ScoreOutcome.valueError m =>
    match get_feedback_attachments fs a with
    | Except.error m2 => some (Except.error [m, m2])
    | Except.ok _ => some (Except.error [m])
  | ScoreOutcome.score sc =>
    let errors0 : List (List Char) := if sc.isNone then [indeterminateMsg] else []
    match get_feedback_attachments fs a with
    | Except.error m2 => some (Except.error (errors0 ++ [m2]))
    | Except.ok att =>
      if errors0.isEmpty then
        some (Except.ok
          { attemptId := a.attemptId, score := sc,
            feedback := (get_feedback fs a).getD [], attachments := att })
      else some (Except.error errors0)

/-- Grading.upload_attempts: process every attempt in order, reporting the
validation errors of excluded attempts (attempt identity and messages) and
collecting the validated uploads; a TypeError escaping one iteration
aborts the whole batch (none). -/
def upload_attempts (fs : FS) :
    List UAttempt → Option (List (List Char × List (List Char)) × List UploadItem)
  | [] => some ([], [])
  | a :: rest =>
    match upload_one fs a with
    | none => none
    | some (Except.error msgs) =>
      match upload_attempts fs rest with
      | none => none
      | some r => some ((a.attemptId, msgs) :: r.1, r.2)
    | some (Except.ok item) =>
      match upload_attempts fs rest with
      | none => none
      | some r => some (r.1, item :: r.2)

/-- C5, evaluated at the failing input: the first attempt's directory d1
lacks comments.txt, so get_feedback returns None; upload_attempts then
feeds None into get_feedback_score, whose re.search raises a TypeError
that the except ValueError clause does not catch — the whole batch aborts
(none) with no per-attempt "no feedback found" report, and the second,
perfectly valid attempt is never processed, although on its own it would
upload with score 1. -/
theorem upload_missing_feedback_aborts :
    get_feedback [("d2/comments.txt".toList, "Accepted".toList)]
      { attemptId := "_1".toList, directory := some ("d1".toList), files := [] }
      = none
    ∧ upload_attempts [("d2/comments.txt".toList, "Accepted".toList)]
      [{ attemptId := "_1".toList, directory := some ("d1".toList), files := [] },
        { attemptId := "_2".toList, directory := some ("d2".toList), files := [] }]
      = none
    ∧ upload_attempts [("d2/comments.txt".toList, "Accepted".toList)]
      [{ attemptId := "_2".toList, directory := some ("d2".toList), files := [] }]
      = some ([],
          [{ attemptId := "_2".toList, score := some 1,
             feedback := "Accepted".toList, attachments := [] }]) := by
  refine ⟨by rfl, by rfl, by rfl⟩
